import Mathlib

/-!
# Verification of the superkey Amazon provider core

Shallow embedding of `src/provider/amazon_provider.go` from
`sources-superkey-worker`: the step interpreter `ForgeApplication`, the
compensator `TearDown`, the payload templater `substiteInPayload` and the
naming helper `getShortName`.

Modelling decisions:
* Go's `error` values are modelled as `String` (only nil-ness and identity
  matter to the spec); a call returning `error` becomes `Option String`
  (`none` = nil error), a call returning `(*string, error)` becomes
  `Except String String`.
* The remote AWS client is an oracle: a structure of pure functions chosen
  arbitrarily, so theorems quantify over every possible outcome of the
  remote calls.  The interpreter additionally records the sequence of
  remote calls it issues (`RemoteCall`), which is the observable the
  ordering claims speak about.
* Go maps `map[string]string` / `map[string]map[string]string` are
  association lists; indexing a missing key yields the zero value `""`
  (for the inner maps, indexing through a `nil` outer entry also yields
  `""`), exactly as in Go.  `f.StepsCompleted[k] != nil` becomes
  `getStep f k ≠ none`.  Go map iteration order is unspecified; the
  association list fixes one order, which no claim depends on.
* `generateGUID` draws from `crypto/rand`; the guid is therefore a
  parameter of the embedding rather than a function.
* `strings.Replace(s, old, new, -1)` is re-implemented as `stringsReplace`
  (left-to-right, non-overlapping, all occurrences; the empty pattern
  inserts the replacement at every position, as in Go).
-/

namespace Superkey

/-- One unit of work from the request (`superkey.Step`): a discriminating
`name`, a `payload` template and a placeholder → source map. -/
structure Step where
  name : String
  payload : String
  substitutions : List (String × String)
deriving DecidableEq, Repr

/-- The caller's request (`superkey.CreateRequest`): application type,
ordered steps and request-scoped extra data. -/
structure CreateRequest where
  applicationType : String
  superKeySteps : List Step
  extra : List (String × String)
deriving DecidableEq, Repr

/-- Outputs recorded for one completed step (`map[string]string`). -/
abbrev Outputs := List (String × String)

/-- The step ledger (`superkey.ForgedApplication`).  The Go struct also
holds a back-pointer to the provider (`Client`), irrelevant to the claims.
The result fields are the identity payload set by `CreatePayload`. -/
structure ForgedApplication where
  request : CreateRequest
  guid : String
  stepsCompleted : List (String × Outputs)
  resultUsername : Option String := none
  resultPassword : Option String := none
  resultAppType : Option String := none
deriving DecidableEq, Repr

/-- Go map read with the string zero value: `m[k]` is `""` when absent. -/
def lookupStr (m : List (String × String)) (k : String) : String :=
  match m.find? (fun p => p.1 = k) with
  | some p => p.2
  | none => ""

/-- `f.StepsCompleted[name]`: `none` models the nil map of a missing key. -/
def ForgedApplication.getStep (f : ForgedApplication) (name : String) :
    Option Outputs :=
  (f.stepsCompleted.find? (fun p => p.1 = name)).map (fun p => p.2)

/-- `f.StepsCompleted[name][key]` with Go zero-value semantics: reading
through a missing step or key yields `""` and never fails. -/
def stepOutput (f : ForgedApplication) (name key : String) : String :=
  match f.getStep name with
  | some outs => lookupStr outs key
  | none => ""

/-- Go map assignment `m[k] = v` on an association list: replace in place
if the key is present, append otherwise. -/
def insertAssoc : List (String × Outputs) → String → Outputs →
    List (String × Outputs)
  | [], k, v => [(k, v)]
  | (k', v') :: rest, k, v =>
      if k' = k then (k, v) :: rest else (k', v') :: insertAssoc rest k v

/-- Modelled from the spec: `ForgedApplication.MarkCompleted` lives in the
`superkey` package, which is not under `src/`.  Per §3 of the spec it
records a step's outputs: `stepsCompleted[name] = data`. -/
def ForgedApplication.markCompleted (f : ForgedApplication) (name : String)
    (data : Outputs) : ForgedApplication :=
  { f with stepsCompleted := insertAssoc f.stepsCompleted name data }

/-- Modelled from the spec: `ForgedApplication.CreatePayload` lives in the
`superkey` package, which is not under `src/`.  Per §3/§4.3 of the spec it
populates the final identity fields from its three pointer arguments
(`nil` pointer = field left unset). -/
def ForgedApplication.createPayload (f : ForgedApplication)
    (username password appType : Option String) : ForgedApplication :=
  { f with resultUsername := username, resultPassword := password,
           resultAppType := appType }

/-- `path.Base` from Go's standard library: last element of the path after
stripping trailing slashes; `""` gives `"."`, an all-slash path gives
`"/"`. -/
def pathBase (p : String) : String :=
  if p = "" then "."
  else
    let cs := (p.data.reverse.dropWhile (fun c => c = '/')).reverse
    let last := (cs.reverse.takeWhile (fun c => c ≠ '/')).reverse
    if last = [] then "/" else String.mk last

/-- `getShortName(name)` generates a name off of the application type:
`"redhat-" + path.Base(name)`. -/
def getShortName (name : String) : String :=
  "redhat-" ++ pathBase name

/-- Worker for `stringsReplace` on character lists; the fuel is an upper
bound on the number of positions still to examine (callers pass the length
of the list, which suffices because each iteration advances at least one
position when the pattern is non-empty). -/
def replGo (pat repl : List Char) : Nat → List Char → List Char
  | _, [] => []
  | 0, l => l
  | fuel + 1, c :: cs =>
      if pat.isPrefixOf (c :: cs) then
        repl ++ replGo pat repl fuel ((c :: cs).drop pat.length)
      else
        c :: replGo pat repl fuel cs

/-- Go's `strings.Replace(s, pat, repl, -1)`: replace all non-overlapping
occurrences left to right; the empty pattern inserts `repl` before every
character and once at the end. -/
def stringsReplace (s pat repl : String) : String :=
  if pat.data = [] then
    String.mk (s.data.foldr (fun c acc => repl.data ++ c :: acc) repl.data)
  else
    String.mk (replGo pat.data repl.data s.data.length s.data)

/-- `substiteInPayload` [sic] from the source: for each substitution entry,
`"get_account"` splices in the request's `extra["account"]` and `"s3"`
splices in the s3 step's recorded `"output"`; other sources are ignored. -/
def substiteInPayload (payload : String) (f : ForgedApplication)
    (substitutions : List (String × String)) : String :=
  substitutions.foldl
    (fun payload entry =>
      if entry.2 = "get_account" then
        stringsReplace payload entry.1 (lookupStr f.request.extra "account")
      else if entry.2 = "s3" then
        stringsReplace payload entry.1 (stepOutput f "s3" "output")
      else
        payload)
    payload

/-- The remote AWS client (`amazon.Client`), as an oracle over every
possible outcome of each remote call.  `none` / `Except.ok` is success. -/
structure Client where
  createS3Bucket : String → Option String
  createPolicy : String → String → Except String String
  createRole : String → String → Except String String
  bindPolicyToRole : String → String → Option String
  unBindPolicyToRole : String → String → Option String
  destroyPolicy : String → Option String
  destroyRole : String → Option String
  destroyS3Bucket : String → Option String

/-- An observable remote call, with the arguments it was issued with. -/
inductive RemoteCall where
  | createS3Bucket (name : String)
  | createPolicy (name payload : String)
  | createRole (name payload : String)
  | bindPolicyToRole (policyArn roleName : String)
  | unBindPolicyToRole (policyArn roleName : String)
  | destroyPolicy (policyArn : String)
  | destroyRole (roleName : String)
  | destroyS3Bucket (name : String)
deriving DecidableEq, Repr

/-- One iteration of the `switch step.Name` in `ForgeApplication`: the
updated ledger, the remote calls issued, and the error if any. -/
def forgeStep (c : Client) (f : ForgedApplication) (s : Step) :
    ForgedApplication × List RemoteCall × Option String :=
  if s.name = "s3" then
    let name := getShortName f.request.applicationType ++ "-bucket-" ++ f.guid
    match c.createS3Bucket name with
    | some e => (f, [RemoteCall.createS3Bucket name], some e)
    | none =>
        (f.markCompleted "s3" [("output", name)],
         [RemoteCall.createS3Bucket name], none)
  else if s.name = "policy" then
    let name := getShortName f.request.applicationType ++ "-policy-" ++ f.guid
    let payload := substiteInPayload s.payload f s.substitutions
    match c.createPolicy name payload with
    | Except.error e => (f, [RemoteCall.createPolicy name payload], some e)
    | Except.ok arn =>
        (f.markCompleted "policy" [("output", arn)],
         [RemoteCall.createPolicy name payload], none)
  else if s.name = "role" then
    let name := getShortName f.request.applicationType ++ "-role-" ++ f.guid
    let payload := substiteInPayload s.payload f s.substitutions
    match c.createRole name payload with
    | Except.error e => (f, [RemoteCall.createRole name payload], some e)
    | Except.ok roleArn =>
        (f.markCompleted "role" [("output", name), ("arn", roleArn)],
         [RemoteCall.createRole name payload], none)
  else if s.name = "bind_role" then
    let roleName := stepOutput f "role" "output"
    let policyArn := stepOutput f "policy" "output"
    match c.bindPolicyToRole policyArn roleName with
    | some e => (f, [RemoteCall.bindPolicyToRole policyArn roleName], some e)
    | none =>
        (f.markCompleted "bind_role" [],
         [RemoteCall.bindPolicyToRole policyArn roleName], none)
  else
    (f, [], none)

/-- The `for _, step := range request.SuperKeySteps` loop: interpret the
steps in order, returning early with the partial ledger on the first
failing remote call. -/
def forgeSteps (c : Client) :
    List Step → ForgedApplication →
      ForgedApplication × List RemoteCall × Option String
  | [], f => (f, [], none)
  | s :: rest, f =>
      let r := forgeStep c f s
      match r.2.2 with
      | some _ => r
      | none =>
          let r' := forgeSteps c rest r.1
          (r'.1, r.2.1 ++ r'.2.1, r'.2.2)

/-- The fresh ledger built at the top of `ForgeApplication` (empty
`StepsCompleted`, the request and the generated guid attached). -/
def initLedger (request : CreateRequest) (guid : String) :
    ForgedApplication :=
  { request := request, guid := guid, stepsCompleted := [] }

/-- `AmazonProvider.ForgeApplication`: run the step loop; on failure return
the partial ledger and the error, otherwise set the identity payload
(username := the role step's recorded arn, password := nil,
appType := path.Base of the application type) and return nil error. -/
def ForgeApplication (c : Client) (request : CreateRequest) (guid : String) :
    ForgedApplication × List RemoteCall × Option String :=
  let r := forgeSteps c request.superKeySteps (initLedger request guid)
  match r.2.2 with
  | some e => (r.1, r.2.1, some e)
  | none =>
      let username := stepOutput r.1 "role" "arn"
      let appType := pathBase request.applicationType
      (r.1.createPayload (some username) none (some appType), r.2.1, none)

/-- An `if err != nil { errors = append(errors, err) }` block. -/
def optErr : Option String → List String
  | some e => [e]
  | none => []

/-- First `TearDown` block: unbind the role (if the bind step happened). -/
def tearDownBind (c : Client) (f : ForgedApplication) :
    List RemoteCall × List String :=
  match f.getStep "bind_role" with
  | some _ =>
      let policyArn := stepOutput f "policy" "output"
      let role := stepOutput f "role" "output"
      ([RemoteCall.unBindPolicyToRole policyArn role],
       optErr (c.unBindPolicyToRole policyArn role))
  | none => ([], [])

/-- Second `TearDown` block: destroy the policy (if it was created). -/
def tearDownPolicy (c : Client) (f : ForgedApplication) :
    List RemoteCall × List String :=
  match f.getStep "policy" with
  | some _ =>
      let policyArn := stepOutput f "policy" "output"
      ([RemoteCall.destroyPolicy policyArn],
       optErr (c.destroyPolicy policyArn))
  | none => ([], [])

/-- Third `TearDown` block: destroy the role (if it was created). -/
def tearDownRole (c : Client) (f : ForgedApplication) :
    List RemoteCall × List String :=
  match f.getStep "role" with
  | some _ =>
      let roleName := stepOutput f "role" "output"
      ([RemoteCall.destroyRole roleName],
       optErr (c.destroyRole roleName))
  | none => ([], [])

/-- Fourth `TearDown` block: destroy the s3 bucket last (if created). -/
def tearDownS3 (c : Client) (f : ForgedApplication) :
    List RemoteCall × List String :=
  match f.getStep "s3" with
  | some _ =>
      let bucket := stepOutput f "s3" "output"
      ([RemoteCall.destroyS3Bucket bucket],
       optErr (c.destroyS3Bucket bucket))
  | none => ([], [])

/-- `AmazonProvider.TearDown`: four independent blocks in the source's
order, each only reading the ledger; every Go statement in the function
only reads `f`, so the explicit state passing returns the ledger
unchanged.  Result: the (unchanged) ledger, the remote calls issued in
order, and the collected errors in order. -/
def TearDown (c : Client) (f : ForgedApplication) :
    ForgedApplication × List RemoteCall × List String :=
  (f,
   (tearDownBind c f).1 ++ (tearDownPolicy c f).1 ++
     (tearDownRole c f).1 ++ (tearDownS3 c f).1,
   (tearDownBind c f).2 ++ (tearDownPolicy c f).2 ++
     (tearDownRole c f).2 ++ (tearDownS3 c f).2)

/-- The step names `ForgeApplication`'s switch recognizes. -/
def recognizedNames : List String := ["s3", "policy", "role", "bind_role"]

/-- The keys of the ledger's `stepsCompleted` map. -/
def completedKeys (f : ForgedApplication) : List String :=
  f.stepsCompleted.map (fun p => p.1)

/-- The error (if any) the oracle returns for a destroy/unbind call. -/
def callError (c : Client) : RemoteCall → Option String
  | RemoteCall.unBindPolicyToRole a r => c.unBindPolicyToRole a r
  | RemoteCall.destroyPolicy a => c.destroyPolicy a
  | RemoteCall.destroyRole r => c.destroyRole r
  | RemoteCall.destroyS3Bucket n => c.destroyS3Bucket n
  | _ => none

/-- Key list after a Go map assignment: unchanged if present, appended
otherwise (shape of `insertAssoc` on the key projection). -/
def insertKey : List String → String → List String
  | [], k => [k]
  | k' :: rest, k => if k' = k then k' :: rest else k' :: insertKey rest k

/-! ## Basic lemmas about the step interpreter -/

theorem forgeSteps_cons_err (c : Client) (s : Step) (rest : List Step)
    (f : ForgedApplication) (e : String) (h : (forgeStep c f s).2.2 = some e) :
    forgeSteps c (s :: rest) f = forgeStep c f s := by
  simp only [forgeSteps, h]

theorem forgeSteps_cons_ok (c : Client) (s : Step) (rest : List Step)
    (f : ForgedApplication) (h : (forgeStep c f s).2.2 = none) :
    forgeSteps c (s :: rest) f =
      ((forgeSteps c rest (forgeStep c f s).1).1,
       (forgeStep c f s).2.1 ++ (forgeSteps c rest (forgeStep c f s).1).2.1,
       (forgeSteps c rest (forgeStep c f s).1).2.2) := by
  simp only [forgeSteps, h]

/-- A failing iteration returns the ledger untouched (the Go `return f,
err` fires before `MarkCompleted`). -/
theorem forgeStep_err_ledger (c : Client) (f : ForgedApplication) (s : Step)
    (e : String) (h : (forgeStep c f s).2.2 = some e) :
    (forgeStep c f s).1 = f := by
  unfold forgeStep at h ⊢
  split_ifs at h ⊢ <;> simp only [] at h ⊢ <;> split at h <;> simp_all

/-- The `default` arm of the switch: an unrecognized step name is a no-op
(no call, no ledger entry, no error). -/
theorem forgeStep_unrecognized (c : Client) (f : ForgedApplication) (s : Step)
    (h : s.name ∉ recognizedNames) :
    forgeStep c f s = (f, [], none) := by
  unfold forgeStep
  simp only [recognizedNames, List.mem_cons, List.not_mem_nil] at h
  push_neg at h
  simp [h.1, h.2.1, h.2.2.1, h.2.2.2.1]

theorem map_fst_insertAssoc (m : List (String × Outputs)) (k : String)
    (v : Outputs) :
    (insertAssoc m k v).map (fun p => p.1) =
      insertKey (m.map (fun p => p.1)) k := by
  induction m with
  | nil => rfl
  | cons hd tl ih =>
      by_cases hk : hd.1 = k
      · simp [insertAssoc, insertKey, hk]
      · simp [insertAssoc, insertKey, hk, ih]

theorem completedKeys_markCompleted (f : ForgedApplication) (name : String)
    (data : Outputs) :
    completedKeys (f.markCompleted name data) =
      insertKey (completedKeys f) name := by
  simp [completedKeys, ForgedApplication.markCompleted, map_fst_insertAssoc]

theorem mem_insertKey (ks : List String) (k n : String) :
    n ∈ insertKey ks k ↔ n ∈ ks ∨ n = k := by
  induction ks with
  | nil => simp [insertKey]
  | cons hd tl ih =>
      by_cases hk : hd = k
      · subst hk; simp [insertKey]; tauto
      · simp [insertKey, hk, ih]; tauto

theorem nodup_insertKey (ks : List String) (k : String) (h : ks.Nodup) :
    (insertKey ks k).Nodup := by
  induction ks with
  | nil => simp [insertKey]
  | cons hd tl ih =>
      rcases List.nodup_cons.mp h with ⟨hhd, htl⟩
      by_cases hk : hd = k
      · simpa [insertKey, hk] using h
      · rw [insertKey, if_neg hk]
        refine List.nodup_cons.mpr ⟨?_, ih htl⟩
        rw [mem_insertKey]
        rintro (hmem | rfl)
        · exact hhd hmem
        · exact hk rfl

/-- A successful iteration records exactly the step's (recognized) name. -/
theorem completedKeys_forgeStep_ok (c : Client) (f : ForgedApplication)
    (s : Step) (h : (forgeStep c f s).2.2 = none) :
    completedKeys (forgeStep c f s).1 =
      (if s.name ∈ recognizedNames then insertKey (completedKeys f) s.name
       else completedKeys f) := by
  unfold forgeStep at h ⊢
  split_ifs at h ⊢ <;> simp only [] at h ⊢ <;>
    first
      | (split at h <;>
          simp_all [recognizedNames, completedKeys_markCompleted])
      | simp_all [recognizedNames]

/-- A successful run records exactly the recognized names occurring in the
step list, on top of whatever the ledger already held. -/
theorem forgeSteps_ok_keys (c : Client) (steps : List Step) :
    ∀ f : ForgedApplication, (forgeSteps c steps f).2.2 = none →
      ∀ n : String,
        (n ∈ completedKeys (forgeSteps c steps f).1 ↔
          n ∈ completedKeys f ∨
            (n ∈ recognizedNames ∧ n ∈ steps.map Step.name)) := by
  induction steps with
  | nil => intro f _ n; simp [forgeSteps]
  | cons s rest ih =>
      intro f h n
      cases hstep : (forgeStep c f s).2.2 with
      | some e =>
          rw [forgeSteps_cons_err c s rest f e hstep] at h
          rw [h] at hstep
          exact absurd hstep (by simp)
      | none =>
          rw [forgeSteps_cons_ok c s rest f hstep] at h ⊢
          simp only at h ⊢
          rw [ih (forgeStep c f s).1 h n,
              completedKeys_forgeStep_ok c f s hstep]
          by_cases hrec : s.name ∈ recognizedNames
          · simp only [if_pos hrec, mem_insertKey]
            constructor
            · rintro ((hf | rfl) | ⟨h1, h2⟩)
              · exact Or.inl hf
              · exact Or.inr ⟨hrec, by simp⟩
              · exact Or.inr ⟨h1, by simp [h2]⟩
            · rintro (hf | ⟨h1, h2⟩)
              · exact Or.inl (Or.inl hf)
              · simp only [List.map_cons, List.mem_cons] at h2
                rcases h2 with rfl | h2
                · exact Or.inl (Or.inr rfl)
                · exact Or.inr ⟨h1, h2⟩
          · simp only [if_neg hrec]
            constructor
            · rintro (hf | ⟨h1, h2⟩)
              · exact Or.inl hf
              · exact Or.inr ⟨h1, by simp [h2]⟩
            · rintro (hf | ⟨h1, h2⟩)
              · exact Or.inl hf
              · simp only [List.map_cons, List.mem_cons] at h2
                rcases h2 with rfl | h2
                · exact absurd h1 hrec
                · exact Or.inr ⟨h1, h2⟩

theorem forgeSteps_ok_nodup (c : Client) (steps : List Step) :
    ∀ f : ForgedApplication, (forgeSteps c steps f).2.2 = none →
      (completedKeys f).Nodup →
      (completedKeys (forgeSteps c steps f).1).Nodup := by
  induction steps with
  | nil => intro f _ hf; simpa [forgeSteps] using hf
  | cons s rest ih =>
      intro f h hf
      cases hstep : (forgeStep c f s).2.2 with
      | some e =>
          rw [forgeSteps_cons_err c s rest f e hstep] at h
          rw [h] at hstep
          exact absurd hstep (by simp)
      | none =>
          rw [forgeSteps_cons_ok c s rest f hstep] at h ⊢
          simp only at h ⊢
          refine ih (forgeStep c f s).1 h ?_
          rw [completedKeys_forgeStep_ok c f s hstep]
          split
          · exact nodup_insertKey _ _ hf
          · exact hf

/-- The loop splits over list concatenation, short-circuiting on error. -/
theorem forgeSteps_append (c : Client) (l1 l2 : List Step) :
    ∀ f : ForgedApplication,
      forgeSteps c (l1 ++ l2) f =
        (match (forgeSteps c l1 f).2.2 with
         | some e => ((forgeSteps c l1 f).1, (forgeSteps c l1 f).2.1, some e)
         | none =>
             ((forgeSteps c l2 (forgeSteps c l1 f).1).1,
              (forgeSteps c l1 f).2.1 ++
                (forgeSteps c l2 (forgeSteps c l1 f).1).2.1,
              (forgeSteps c l2 (forgeSteps c l1 f).1).2.2)) := by
  induction l1 with
  | nil => intro f; simp [forgeSteps]
  | cons s rest ih =>
      intro f
      cases hstep : (forgeStep c f s).2.2 with
      | some e =>
          rw [List.cons_append, forgeSteps_cons_err c s (rest ++ l2) f e hstep,
              forgeSteps_cons_err c s rest f e hstep]
          simp only [hstep]
          rw [← hstep]
      | none =>
          rw [List.cons_append, forgeSteps_cons_ok c s (rest ++ l2) f hstep,
              forgeSteps_cons_ok c s rest f hstep, ih (forgeStep c f s).1]
          cases h2 : (forgeSteps c rest (forgeStep c f s).1).2.2 <;> simp

/-! ## TearDown lemmas -/

theorem tearDownBind_errs (c : Client) (f : ForgedApplication) :
    (tearDownBind c f).2 = (tearDownBind c f).1.filterMap (callError c) := by
  unfold tearDownBind
  cases f.getStep "bind_role"
  · simp
  · cases hc : c.unBindPolicyToRole (stepOutput f "policy" "output")
      (stepOutput f "role" "output") <;> simp [optErr, callError, hc]

theorem tearDownPolicy_errs (c : Client) (f : ForgedApplication) :
    (tearDownPolicy c f).2 = (tearDownPolicy c f).1.filterMap (callError c) := by
  unfold tearDownPolicy
  cases f.getStep "policy"
  · simp
  · cases hc : c.destroyPolicy (stepOutput f "policy" "output") <;>
      simp [optErr, callError, hc]

theorem tearDownRole_errs (c : Client) (f : ForgedApplication) :
    (tearDownRole c f).2 = (tearDownRole c f).1.filterMap (callError c) := by
  unfold tearDownRole
  cases f.getStep "role"
  · simp
  · cases hc : c.destroyRole (stepOutput f "role" "output") <;>
      simp [optErr, callError, hc]

theorem tearDownS3_errs (c : Client) (f : ForgedApplication) :
    (tearDownS3 c f).2 = (tearDownS3 c f).1.filterMap (callError c) := by
  unfold tearDownS3
  cases f.getStep "s3"
  · simp
  · cases hc : c.destroyS3Bucket (stepOutput f "s3" "output") <;>
      simp [optErr, callError, hc]

/-- Error aggregation: the returned error list is exactly the errors of
the failed calls, one per failure, in call order. -/
theorem TearDown_errs (c : Client) (f : ForgedApplication) :
    (TearDown c f).2.2 = ((TearDown c f).2.1).filterMap (callError c) := by
  simp [TearDown, List.filterMap_append, tearDownBind_errs,
    tearDownPolicy_errs, tearDownRole_errs, tearDownS3_errs]

/-! ## Concrete fixtures -/

/-- An oracle on which every remote call succeeds. -/
def cOk : Client where
  createS3Bucket := fun _ => none
  createPolicy := fun _ _ => Except.ok "policy-arn-1"
  createRole := fun _ _ => Except.ok "role-arn-1"
  bindPolicyToRole := fun _ _ => none
  unBindPolicyToRole := fun _ _ => none
  destroyPolicy := fun _ => none
  destroyRole := fun _ => none
  destroyS3Bucket := fun _ => none

/-- An oracle whose policy-creation call fails. -/
def cPolicyFail : Client :=
  { cOk with createPolicy := fun _ _ => Except.error "policy-error" }

/-- An oracle on which destroying the policy and the bucket fails while
everything else succeeds. -/
def cDestroyFail : Client :=
  { cOk with destroyPolicy := fun _ => some "e-policy",
             destroyS3Bucket := fun _ => some "e-s3" }

def stepS3 : Step := { name := "s3", payload := "", substitutions := [] }

def stepPolicy : Step :=
  { name := "policy", payload := "", substitutions := [] }

def stepRole : Step := { name := "role", payload := "", substitutions := [] }

def stepBind : Step :=
  { name := "bind_role", payload := "", substitutions := [] }

def stepUnknown : Step :=
  { name := "dynamodb", payload := "", substitutions := [] }

/-- A request exercising all recognized steps plus an unrecognized one. -/
def reqE2E : CreateRequest :=
  { applicationType := "/insights/platform/cloud-meter"
    superKeySteps := [stepS3, stepPolicy, stepRole, stepBind, stepUnknown]
    extra := [("account", "12345")] }

def fEmpty : ForgedApplication := initLedger reqE2E "g"

/-- A ledger recording all four recognized steps as completed. -/
def fFull : ForgedApplication :=
  { request := reqE2E, guid := "g",
    stepsCompleted :=
      [("s3", [("output", "bucket-1")]),
       ("policy", [("output", "policy-arn-1")]),
       ("role", [("output", "role-name-1"), ("arn", "role-arn-1")]),
       ("bind_role", [])] }

/-- A ledger with s3, policy and role completed but no bind. -/
def fNoBind : ForgedApplication :=
  { request := reqE2E, guid := "g",
    stepsCompleted :=
      [("s3", [("output", "bucket-1")]),
       ("policy", [("output", "policy-arn-1")]),
       ("role", [("output", "role-name-1"), ("arn", "role-arn-1")])] }

/-- A ledger recording only the s3 step, with the spec's example output. -/
def fBucket : ForgedApplication :=
  { request := reqE2E, guid := "g",
    stepsCompleted := [("s3", [("output", "my-bucket-abc123")])] }

/-! ## The claims -/

/-- Claim C8: for every ledger whose stepsCompleted mapping is empty,
TearDown performs zero remote calls and returns an empty error list. -/
theorem spec_C8 (c : Client) (f : ForgedApplication)
    (h : f.stepsCompleted = []) :
    (TearDown c f).2.1 = [] ∧ (TearDown c f).2.2 = [] := by
  have hget : ∀ n, f.getStep n = none := by
    intro n; simp [ForgedApplication.getStep, h]
  simp [TearDown, tearDownBind, tearDownPolicy, tearDownRole, tearDownS3,
    hget]

/-- Witness for C8: the empty ledger satisfies the hypothesis and the
conclusion holds on it. -/
theorem spec_C8_witness :
    fEmpty.stepsCompleted = [] ∧
      (TearDown cOk fEmpty).2.1 = [] ∧ (TearDown cOk fEmpty).2.2 = [] :=
  ⟨rfl, spec_C8 cOk fEmpty rfl⟩

/-- Claim C9 (frame property): TearDown never mutates the ledger it is
given — the explicit-state-passing embedding of the Go routine (which only
reads `f`) returns the ledger unchanged for every oracle outcome, so a
second TearDown on the returned ledger issues exactly the same remote
calls as the first. -/
theorem spec_C9 (c : Client) (f : ForgedApplication) :
    (TearDown c f).1 = f ∧
      TearDown c ((TearDown c f).1) = TearDown c f :=
  ⟨rfl, rfl⟩

/-- Claim C5: the payload templater replaces every literal occurrence of
each entry's placeholder token: a "get_account" entry resolves to the
request's extra["account"], an "s3" entry resolves to
stepsCompleted["s3"]["output"]; on the spec's example, payload
"arn:{{BUCKET}}" with mapping {{{BUCKET}} ↦ s3-output} and recorded s3
output "my-bucket-abc123" yields "arn:my-bucket-abc123". -/
theorem spec_C5 (payload : String) (f : ForgedApplication) (tok : String)
    (rest : List (String × String)) :
    (substiteInPayload payload f ((tok, "get_account") :: rest) =
      substiteInPayload
        (stringsReplace payload tok (lookupStr f.request.extra "account"))
        f rest) ∧
    (substiteInPayload payload f ((tok, "s3") :: rest) =
      substiteInPayload
        (stringsReplace payload tok (stepOutput f "s3" "output")) f rest) ∧
    substiteInPayload "arn:\x7b\x7bBUCKET\x7d\x7d" fBucket
        [("\x7b\x7bBUCKET\x7d\x7d", "s3")] = "arn:my-bucket-abc123" := by
  refine ⟨?_, ?_, by decide⟩
  · simp [substiteInPayload]
  · simp [substiteInPayload]

/-- Claim C10: reading the outputs of a step absent from stepsCompleted
never fails and yields the empty string; a bind_role step run without a
completed policy or role step issues the remote bind call with
empty-string policy-ARN and role-name arguments; a prior-step-output
substitution with no completed source step substitutes the empty
string. -/
theorem spec_C10 (c : Client) (f : ForgedApplication) (s : Step)
    (name key tok payload : String)
    (habs : f.getStep name = none)
    (hbind : s.name = "bind_role")
    (hrole : f.getStep "role" = none)
    (hpol : f.getStep "policy" = none)
    (hs3 : f.getStep "s3" = none) :
    stepOutput f name key = "" ∧
    (forgeStep c f s).2.1 = [RemoteCall.bindPolicyToRole "" ""] ∧
    substiteInPayload payload f [(tok, "s3")] =
      stringsReplace payload tok "" := by
  have h1 : stepOutput f "role" "output" = "" := by
    simp [stepOutput, hrole]
  have h2 : stepOutput f "policy" "output" = "" := by
    simp [stepOutput, hpol]
  have h3 : stepOutput f "s3" "output" = "" := by
    simp [stepOutput, hs3]
  refine ⟨by simp [stepOutput, habs], ?_, ?_⟩
  · unfold forgeStep
    rw [hbind]
    simp only [String.reduceEq, if_false, if_true, reduceIte, h1, h2]
    cases c.bindPolicyToRole "" "" <;> simp
  · simp [substiteInPayload, h3]

/-- Witness for C10: a bind_role step against the empty ledger satisfies
every hypothesis and the conclusion holds there. -/
theorem spec_C10_witness :
    fEmpty.getStep "x" = none ∧
      (stepOutput fEmpty "x" "output" = "" ∧
        (forgeStep cOk fEmpty stepBind).2.1 =
          [RemoteCall.bindPolicyToRole "" ""] ∧
        substiteInPayload "p" fEmpty [("tok", "s3")] =
          stringsReplace "p" "tok" "") :=
  ⟨by decide,
   spec_C10 cOk fEmpty stepBind "x" "output" "tok" "p" (by decide) rfl
     (by decide) (by decide) (by decide)⟩

/-- Claim C2: TearDown acts on a step kind only if its stepsCompleted
entry is present, and on a ledger with s3, policy, role and bind_role all
completed the remote calls are, in order: unbind the policy from the role,
destroy the policy, destroy the role, destroy the s3 bucket last (the
destroy-policy/destroy-role pair in the order the source fixes, which the
claim allows). -/
theorem spec_C2 (c : Client) (f : ForgedApplication) :
    ((∃ a r, RemoteCall.unBindPolicyToRole a r ∈ (TearDown c f).2.1) →
      f.getStep "bind_role" ≠ none) ∧
    ((∃ a, RemoteCall.destroyPolicy a ∈ (TearDown c f).2.1) →
      f.getStep "policy" ≠ none) ∧
    ((∃ r, RemoteCall.destroyRole r ∈ (TearDown c f).2.1) →
      f.getStep "role" ≠ none) ∧
    ((∃ n, RemoteCall.destroyS3Bucket n ∈ (TearDown c f).2.1) →
      f.getStep "s3" ≠ none) ∧
    (f.getStep "bind_role" ≠ none → f.getStep "policy" ≠ none →
      f.getStep "role" ≠ none → f.getStep "s3" ≠ none →
      (TearDown c f).2.1 =
        [RemoteCall.unBindPolicyToRole (stepOutput f "policy" "output")
           (stepOutput f "role" "output"),
         RemoteCall.destroyPolicy (stepOutput f "policy" "output"),
         RemoteCall.destroyRole (stepOutput f "role" "output"),
         RemoteCall.destroyS3Bucket (stepOutput f "s3" "output")]) := by
  cases hb : f.getStep "bind_role" <;>
    cases hp : f.getStep "policy" <;>
      cases hr : f.getStep "role" <;>
        cases hs : f.getStep "s3" <;>
          simp [TearDown, tearDownBind, tearDownPolicy, tearDownRole,
            tearDownS3, hb, hp, hr, hs]

/-- Witness for C2: on the fully completed ledger all hypotheses of the
ordering conjunct hold, and the call sequence is as claimed. -/
theorem spec_C2_witness :
    (TearDown cOk fFull).2.1 =
      [RemoteCall.unBindPolicyToRole
         (stepOutput fFull "policy" "output")
         (stepOutput fFull "role" "output"),
       RemoteCall.destroyPolicy (stepOutput fFull "policy" "output"),
       RemoteCall.destroyRole (stepOutput fFull "role" "output"),
       RemoteCall.destroyS3Bucket (stepOutput fFull "s3" "output")] :=
  (spec_C2 cOk fFull).2.2.2.2 (by decide) (by decide) (by decide)
    (by decide)

/-- Claim C3: TearDown attempts every cleanup action whose stepsCompleted
entry is present, independently of other failures; the returned list has
exactly one error per failed call (in call order) and the routine always
returns; in the spec's scenario — destroy-policy and destroy-bucket fail
while destroy-role succeeds — all three destroys are attempted and exactly
the two errors are returned. -/
theorem spec_C3 (c : Client) (f : ForgedApplication) (e1 e2 : String)
    (hp : f.getStep "policy" ≠ none) (hr : f.getStep "role" ≠ none)
    (hs : f.getStep "s3" ≠ none) (hb : f.getStep "bind_role" = none)
    (hfp : c.destroyPolicy (stepOutput f "policy" "output") = some e1)
    (hfr : c.destroyRole (stepOutput f "role" "output") = none)
    (hfs : c.destroyS3Bucket (stepOutput f "s3" "output") = some e2) :
    (∀ (c' : Client) (f' : ForgedApplication),
      (TearDown c' f').2.2 =
        ((TearDown c' f').2.1).filterMap (callError c')) ∧
    (∀ (c' : Client) (f' : ForgedApplication),
      (f'.getStep "bind_role" ≠ none →
        ∃ a r, RemoteCall.unBindPolicyToRole a r ∈ (TearDown c' f').2.1) ∧
      (f'.getStep "policy" ≠ none →
        ∃ a, RemoteCall.destroyPolicy a ∈ (TearDown c' f').2.1) ∧
      (f'.getStep "role" ≠ none →
        ∃ r, RemoteCall.destroyRole r ∈ (TearDown c' f').2.1) ∧
      (f'.getStep "s3" ≠ none →
        ∃ n, RemoteCall.destroyS3Bucket n ∈ (TearDown c' f').2.1)) ∧
    RemoteCall.destroyPolicy (stepOutput f "policy" "output") ∈
      (TearDown c f).2.1 ∧
    RemoteCall.destroyRole (stepOutput f "role" "output") ∈
      (TearDown c f).2.1 ∧
    RemoteCall.destroyS3Bucket (stepOutput f "s3" "output") ∈
      (TearDown c f).2.1 ∧
    (TearDown c f).2.2 = [e1, e2] := by
  refine ⟨fun c' f' => TearDown_errs c' f', ?_, ?_⟩
  · intro c' f'
    refine ⟨?_, ?_, ?_, ?_⟩ <;>
      cases hb' : f'.getStep "bind_role" <;>
        cases hp' : f'.getStep "policy" <;>
          cases hr' : f'.getStep "role" <;>
            cases hs' : f'.getStep "s3" <;>
              simp [TearDown, tearDownBind, tearDownPolicy, tearDownRole,
                tearDownS3, hb', hp', hr', hs']
  · rcases Option.ne_none_iff_exists'.mp hp with ⟨vp, hvp⟩
    rcases Option.ne_none_iff_exists'.mp hr with ⟨vr, hvr⟩
    rcases Option.ne_none_iff_exists'.mp hs with ⟨vs, hvs⟩
    simp [TearDown, tearDownBind, tearDownPolicy, tearDownRole, tearDownS3,
      hb, hvp, hvr, hvs, hfp, hfr, hfs, optErr]

/-- Witness for C3: the failing oracle and the bind-less ledger satisfy
all hypotheses, and the conclusion holds there. -/
theorem spec_C3_witness :
    cDestroyFail.destroyPolicy (stepOutput fNoBind "policy" "output") =
        some "e-policy" ∧
      (TearDown cDestroyFail fNoBind).2.2 = ["e-policy", "e-s3"] :=
  ⟨by decide,
   (spec_C3 cDestroyFail fNoBind "e-policy" "e-s3" (by decide) (by decide)
     (by decide) (by decide) (by decide) (by decide)
     (by decide)).2.2.2.2.2⟩

theorem completedKeys_createPayload (f : ForgedApplication)
    (u p a : Option String) :
    completedKeys (f.createPayload u p a) = completedKeys f := rfl

theorem stepOutput_createPayload (f : ForgedApplication)
    (u p a : Option String) (name key : String) :
    stepOutput (f.createPayload u p a) name key = stepOutput f name key :=
  rfl

/-- Claim C4: when every step's remote call succeeds (nil returned error),
stepsCompleted holds exactly one entry per recognized step name occurring
in the request and no others; an unrecognized step name is a no-op that
issues no remote call, records no ledger entry and returns no error. -/
theorem spec_C4 (c : Client) (request : CreateRequest) (guid : String)
    (n : String) (f : ForgedApplication) (s : Step)
    (hok : (ForgeApplication c request guid).2.2 = none)
    (hunrec : s.name ∉ recognizedNames) :
    (completedKeys (ForgeApplication c request guid).1).Nodup ∧
    (n ∈ completedKeys (ForgeApplication c request guid).1 ↔
      n ∈ recognizedNames ∧ n ∈ request.superKeySteps.map Step.name) ∧
    forgeStep c f s = (f, [], none) := by
  have hrun : (forgeSteps c request.superKeySteps
      (initLedger request guid)).2.2 = none := by
    by_contra hne
    rcases Option.ne_none_iff_exists'.mp hne with ⟨e, he⟩
    simp [ForgeApplication, he] at hok
  have hres : (ForgeApplication c request guid).1 =
      ((forgeSteps c request.superKeySteps
        (initLedger request guid)).1).createPayload
        (some (stepOutput (forgeSteps c request.superKeySteps
          (initLedger request guid)).1 "role" "arn")) none
        (some (pathBase request.applicationType)) := by
    simp [ForgeApplication, hrun]
  refine ⟨?_, ?_, forgeStep_unrecognized c f s hunrec⟩
  · rw [hres, completedKeys_createPayload]
    exact forgeSteps_ok_nodup c request.superKeySteps _ hrun
      (by simp [completedKeys, initLedger])
  · rw [hres, completedKeys_createPayload,
      forgeSteps_ok_keys c request.superKeySteps _ hrun n]
    simp [completedKeys, initLedger]

/-- Witness for C4: the all-success oracle on the five-step request (four
recognized steps plus one unknown) satisfies both hypotheses and the
conclusion holds at n = "s3". -/
theorem spec_C4_witness :
    (ForgeApplication cOk reqE2E "g").2.2 = none ∧
      ((completedKeys (ForgeApplication cOk reqE2E "g").1).Nodup ∧
       ("s3" ∈ completedKeys (ForgeApplication cOk reqE2E "g").1 ↔
         "s3" ∈ recognizedNames ∧
           "s3" ∈ reqE2E.superKeySteps.map Step.name) ∧
       forgeStep cOk fEmpty stepUnknown = (fEmpty, [], none)) :=
  ⟨by decide,
   spec_C4 cOk reqE2E "g" "s3" fEmpty stepUnknown (by decide) (by decide)⟩

/-- Claim C6: when ForgeApplication completes with every remote call
succeeding, the returned ledger's username field equals the role step's
recorded "arn" output and the password field is left unset. -/
theorem spec_C6 (c : Client) (request : CreateRequest) (guid : String)
    (hok : (ForgeApplication c request guid).2.2 = none) :
    (ForgeApplication c request guid).1.resultUsername =
      some (stepOutput (ForgeApplication c request guid).1 "role" "arn") ∧
    (ForgeApplication c request guid).1.resultPassword = none := by
  have hrun : (forgeSteps c request.superKeySteps
      (initLedger request guid)).2.2 = none := by
    by_contra hne
    rcases Option.ne_none_iff_exists'.mp hne with ⟨e, he⟩
    simp [ForgeApplication, he] at hok
  have hres : (ForgeApplication c request guid).1 =
      ((forgeSteps c request.superKeySteps
        (initLedger request guid)).1).createPayload
        (some (stepOutput (forgeSteps c request.superKeySteps
          (initLedger request guid)).1 "role" "arn")) none
        (some (pathBase request.applicationType)) := by
    simp [ForgeApplication, hrun]
  rw [hres, stepOutput_createPayload]
  exact ⟨rfl, rfl⟩

/-- Witness for C6: the end-to-end request with the all-success oracle
satisfies the hypothesis; additionally the username concretely equals the
role arn the oracle returned. -/
theorem spec_C6_witness :
    (ForgeApplication cOk reqE2E "g").2.2 = none ∧
      ((ForgeApplication cOk reqE2E "g").1.resultUsername =
        some (stepOutput (ForgeApplication cOk reqE2E "g").1 "role" "arn") ∧
       (ForgeApplication cOk reqE2E "g").1.resultPassword = none) ∧
      (ForgeApplication cOk reqE2E "g").1.resultUsername =
        some "role-arn-1" :=
  ⟨by decide, spec_C6 cOk reqE2E "g" (by decide), by decide⟩

/-- Claim C1: if the remote call of step k fails (the steps before k
having run without error), ForgeApplication stops interpreting further
steps immediately: it returns step k's error together with the ledger
produced by the first k steps, whose stepsCompleted holds exactly the
recognized step names occurring strictly before k and no entry for step k
or any later step. -/
theorem spec_C1 (c : Client) (request : CreateRequest) (guid : String)
    (k : Nat) (e : String) (hk : k < request.superKeySteps.length)
    (hpre : (forgeSteps c (request.superKeySteps.take k)
        (initLedger request guid)).2.2 = none)
    (hfail : (forgeStep c
        (forgeSteps c (request.superKeySteps.take k)
          (initLedger request guid)).1
        request.superKeySteps[k]).2.2 = some e) :
    (ForgeApplication c request guid).2.2 = some e ∧
    (ForgeApplication c request guid).1 =
      (forgeSteps c (request.superKeySteps.take k)
        (initLedger request guid)).1 ∧
    ∀ n : String,
      (n ∈ completedKeys (ForgeApplication c request guid).1 ↔
        n ∈ recognizedNames ∧
          n ∈ (request.superKeySteps.take k).map Step.name) := by
  have hdecomp : request.superKeySteps =
      request.superKeySteps.take k ++
        (request.superKeySteps[k] :: request.superKeySteps.drop (k + 1)) := by
    conv_lhs => rw [← List.take_append_drop k request.superKeySteps]
    rw [List.drop_eq_getElem_cons hk]
  have h1 := forgeSteps_append c (request.superKeySteps.take k)
    (request.superKeySteps[k] :: request.superKeySteps.drop (k + 1))
    (initLedger request guid)
  rw [← hdecomp, hpre] at h1
  rw [forgeSteps_cons_err c _ _ _ e hfail] at h1
  have hled := forgeStep_err_ledger c _ _ e hfail
  have h2 : (forgeSteps c request.superKeySteps
      (initLedger request guid)).2.2 = some e := by
    rw [h1]
    simpa using hfail
  have h3 : (forgeSteps c request.superKeySteps
      (initLedger request guid)).1 =
      (forgeSteps c (request.superKeySteps.take k)
        (initLedger request guid)).1 := by
    rw [h1]
    simpa using hled
  refine ⟨by simp [ForgeApplication, h2], by simp [ForgeApplication, h2, h3],
    fun n => ?_⟩
  have hkeys := forgeSteps_ok_keys c (request.superKeySteps.take k)
    (initLedger request guid) hpre n
  have h4 : (ForgeApplication c request guid).1 =
      (forgeSteps c (request.superKeySteps.take k)
        (initLedger request guid)).1 := by
    simp [ForgeApplication, h2, h3]
  rw [h4, hkeys]
  simp [completedKeys, initLedger]

/-- Witness for C1: with an oracle whose policy creation fails, the
end-to-end request fails at step index 1, the first step having
succeeded. -/
theorem spec_C1_witness :
    (forgeSteps cPolicyFail (reqE2E.superKeySteps.take 1)
        (initLedger reqE2E "g")).2.2 = none ∧
      ((ForgeApplication cPolicyFail reqE2E "g").2.2 =
          some "policy-error" ∧
        (ForgeApplication cPolicyFail reqE2E "g").1 =
          (forgeSteps cPolicyFail (reqE2E.superKeySteps.take 1)
            (initLedger reqE2E "g")).1 ∧
        ∀ n : String,
          (n ∈ completedKeys (ForgeApplication cPolicyFail reqE2E "g").1 ↔
            n ∈ recognizedNames ∧
              n ∈ (reqE2E.superKeySteps.take 1).map Step.name)) :=
  ⟨by decide,
   spec_C1 cPolicyFail reqE2E "g" 1 "policy-error" (by decide) (by decide)
     (by decide)⟩

/-- Counterexample to C7 as stated: the base-resource step is named "s3",
yet the name passed to the remote bucket-creation call uses the literal
label "bucket", not the step name — the first call of the run is
createS3Bucket "redhat-cloud-meter-bucket-g", and no call of the run uses
the claimed name shortName-"s3"-guid. -/
theorem spec_C7_counterexample :
    (ForgeApplication cOk reqE2E "g").2.1.head? =
      some (RemoteCall.createS3Bucket "redhat-cloud-meter-bucket-g") ∧
    RemoteCall.createS3Bucket
        (getShortName reqE2E.applicationType ++ "-" ++ stepS3.name ++
          "-" ++ "g") ∉
      (ForgeApplication cOk reqE2E "g").2.1 := by
  decide

/-- Claim C7 (amended): the policy and role steps pass the resource name
shortName(applicationType)-stepName-guid to their remote creation calls;
the base-resource step passes shortName(applicationType)-"bucket"-guid,
with the fixed label "bucket" in place of its step name "s3"; the bind
step derives no resource name of its own. -/
theorem spec_C7 (c : Client) (f : ForgedApplication) (s : Step) :
    (s.name = "s3" →
      (forgeStep c f s).2.1 =
        [RemoteCall.createS3Bucket
          (getShortName f.request.applicationType ++ "-bucket-" ++
            f.guid)]) ∧
    (s.name = "policy" →
      (forgeStep c f s).2.1 =
        [RemoteCall.createPolicy
          (getShortName f.request.applicationType ++ "-policy-" ++ f.guid)
          (substiteInPayload s.payload f s.substitutions)]) ∧
    (s.name = "role" →
      (forgeStep c f s).2.1 =
        [RemoteCall.createRole
          (getShortName f.request.applicationType ++ "-role-" ++ f.guid)
          (substiteInPayload s.payload f s.substitutions)]) ∧
    (s.name = "bind_role" →
      (forgeStep c f s).2.1 =
        [RemoteCall.bindPolicyToRole (stepOutput f "policy" "output")
          (stepOutput f "role" "output")]) := by
  refine ⟨fun h => ?_, fun h => ?_, fun h => ?_, fun h => ?_⟩ <;>
    unfold forgeStep <;> rw [h] <;>
      simp only [String.reduceEq, reduceIte] <;>
        split <;> rfl

/-- Witness for the amended C7: at a concrete policy step the implication
fires and the derived name is the short name, the step name and the guid
joined by dashes. -/
theorem spec_C7_witness :
    stepPolicy.name = "policy" ∧
      (forgeStep cOk fBucket stepPolicy).2.1 =
        [RemoteCall.createPolicy
          (getShortName fBucket.request.applicationType ++ "-policy-" ++
            fBucket.guid)
          (substiteInPayload stepPolicy.payload fBucket
            stepPolicy.substitutions)] :=
  ⟨rfl, (spec_C7 cOk fBucket stepPolicy).2.1 rfl⟩

end Superkey
